import Mathlib

/-!
Verification of the greeting workflow in `src/python/_7476/workflows.py`.

The repository defines a single Temporal workflow class `SayHelloWorkflow`:

* `__init__` sets `self._complete = False`;
* `run(name)` logs the current identity-context value (`user_id.get()`),
  overwrites the identity context with the literal `"random"`, suspends on
  `workflow.wait_condition(lambda: self._complete)`, then executes the
  activity `say_hello_activity` with argument `name` and a 5-minute
  `start_to_close_timeout`, logs the identity context again and returns the
  activity's result;
* the signal handler `signal_complete` logs the identity context and sets
  `self._complete = True`.

The embedding below models one workflow instance as an explicit state record,
with the run coroutine represented by a program-point (`RunPhase`) and the
host runtime's scheduling by an event step function.  Following the durable
execution model, every delivered event (a signal, or an activity outcome)
atomically runs its handler and then resumes the run coroutine until it
suspends again, so the run routine and the signal handler never interleave
within a logical step.
-/

set_option maxHeartbeats 1000000

namespace SayHello

/-- Program point of the `run` coroutine of a workflow instance: not yet
started, suspended at `workflow.wait_condition`, suspended awaiting
`workflow.execute_activity`, returned with a result, or failed with a
propagated activity failure. -/
inductive RunPhase where
  | notStarted
  | atWait
  | atActivity
  | done (result : String)
  | failed
deriving DecidableEq, Repr

/-- State of one `SayHelloWorkflow` instance together with its observable
interactions.  `complete` is the source field `self._complete`; `userId` is
the current value of the ambient identity context `user_id`; `log` collects
the messages passed to `workflow.logger.info`; `activityCalls` records every
invocation of the activity invoker as a pair of the argument and the
`start_to_close_timeout` in minutes. -/
structure SayHelloWorkflow where
  inputName : String
  complete : Bool
  userId : String
  log : List String
  activityCalls : List (String × Nat)
  phase : RunPhase
deriving DecidableEq, Repr

/-- The message logged by the run routine: `f"Workflow called by user {user_id.get()}"`. -/
def wfLogLine (u : String) : String := "Workflow called by user " ++ u

/-- The message logged by the signal handler: `f"Signal called by user {user_id.get()}"`. -/
def sigLogLine (u : String) : String := "Signal called by user " ++ u

/-- The `start_to_close_timeout=timedelta(minutes=5)` of the activity call,
in minutes. -/
def startToCloseTimeout : Nat := 5

/-- A freshly constructed instance (`__init__`): `self._complete = False`,
nothing logged, no activity invoked, run coroutine not yet started.  `u` is
the identity-context value supplied by the host for this execution. -/
def mkInstance (name u : String) : SayHelloWorkflow :=
  { inputName := name, complete := false, userId := u, log := [],
    activityCalls := [], phase := .notStarted }

/-- `workflow.execute_activity(say_hello_activity, name, start_to_close_timeout=timedelta(minutes=5))`:
records the invocation and suspends until the activity outcome arrives. -/
def execActivity (s : SayHelloWorkflow) : SayHelloWorkflow :=
  { s with
    activityCalls := s.activityCalls ++ [(s.inputName, startToCloseTimeout)],
    phase := .atActivity }

/-- Resume the `run` coroutine until its next suspension point.  From the
start it executes the body of `run`: log the identity context, set it to
`"random"`, then evaluate the wait condition `self._complete`; if the
condition holds the activity is invoked, otherwise the coroutine suspends.
From the wait point it re-evaluates the condition.  A coroutine awaiting the
activity, already returned or failed is not resumed by the scheduler. -/
def resumeRun (s : SayHelloWorkflow) : SayHelloWorkflow :=
  match s.phase with
  | .notStarted =>
      let s1 := { s with log := s.log ++ [wfLogLine s.userId], userId := "random" }
      if s1.complete then execActivity s1 else { s1 with phase := .atWait }
  | .atWait => if s.complete then execActivity s else s
  | _ => s

/-- The signal handler `signal_complete`: logs the identity context, then
sets `self._complete = True`.  It takes no arguments besides the instance
and produces no value, only this state change. -/
def signal_complete (s : SayHelloWorkflow) : SayHelloWorkflow :=
  { s with log := s.log ++ [sigLogLine s.userId], complete := true }

/-- An external event delivered to a started instance: a `signal_complete`
delivery, or the outcome of the pending activity invocation (its returned
string, or its failure/timeout surfaced as `ActivityFailure`). -/
inductive Event where
  | signal
  | activityOk (r : String)
  | activityFail
deriving DecidableEq, Repr

/-- One logical step of the host runtime: run the event's handler, then
resume the run coroutine to its next suspension point.  An activity outcome
is only meaningful while the coroutine awaits the activity: a returned
string resumes `run` (which logs again and returns the string), a failure
propagates as `ActivityFailure` and terminates the instance failed. -/
def handleEvent (s : SayHelloWorkflow) (e : Event) : SayHelloWorkflow :=
  match e with
  | .signal => resumeRun (signal_complete s)
  | .activityOk r =>
      match s.phase with
      | .atActivity =>
          { s with log := s.log ++ [wfLogLine s.userId], phase := .done r }
      | _ => s
  | .activityFail =>
      match s.phase with
      | .atActivity => { s with phase := .failed }
      | _ => s

/-- Start(name): construct the instance and run the `run` coroutine to its
first suspension point. -/
def startWorkflow (name u : String) : SayHelloWorkflow :=
  resumeRun (mkInstance name u)

/-- The state of an instance started with input `name` and identity context
`u` after the events `es` have been delivered in order. -/
def runWorkflow (name u : String) (es : List Event) : SayHelloWorkflow :=
  es.foldl handleEvent (startWorkflow name u)

/-- The workflow's final result: present exactly when the run routine has
returned. -/
def result (s : SayHelloWorkflow) : Option String :=
  match s.phase with
  | .done r => some r
  | _ => none

/-- Reachability invariant of a started instance: the run coroutine has
started; while it waits for the signal nothing has completed and no activity
was invoked; past the wait the flag is set and the activity was invoked
exactly once, with the input name and the 5-minute timeout. -/
def Inv (s : SayHelloWorkflow) : Prop :=
  s.phase ≠ .notStarted ∧
  (s.phase = .atWait → s.complete = false ∧ s.activityCalls = []) ∧
  (s.phase ≠ .atWait →
    s.complete = true ∧ s.activityCalls = [(s.inputName, startToCloseTimeout)])

example :
    result (runWorkflow "World" "alice" [.signal, .activityOk "Hello, World!"])
      = some "Hello, World!" := by decide

example : (runWorkflow "World" "alice" []).phase = .atWait := by decide

example :
    (runWorkflow "World" "alice" [.signal]).activityCalls
      = [("World", 5)] := by decide

/-! ### Basic step lemmas -/

lemma handleEvent_inputName (s : SayHelloWorkflow) (e : Event) :
    (handleEvent s e).inputName = s.inputName := by
  rcases s with ⟨n, c, uid, lg, ac, ph⟩
  cases e <;> cases ph <;>
    simp [handleEvent, resumeRun, signal_complete, execActivity]

lemma foldl_inputName (es : List Event) (s : SayHelloWorkflow) :
    (es.foldl handleEvent s).inputName = s.inputName := by
  induction es generalizing s with
  | nil => rfl
  | cons e es ih => rw [List.foldl_cons, ih, handleEvent_inputName]

lemma runWorkflow_inputName (name u : String) (es : List Event) :
    (runWorkflow name u es).inputName = name := by
  rw [runWorkflow, foldl_inputName]
  rfl

lemma inv_step {s : SayHelloWorkflow} (e : Event) (h : Inv s) :
    Inv (handleEvent s e) := by
  rcases s with ⟨n, c, uid, lg, ac, ph⟩
  cases e <;> cases ph <;>
    simp_all [Inv, handleEvent, resumeRun, signal_complete, execActivity]

lemma inv_foldl {s : SayHelloWorkflow} (es : List Event) (h : Inv s) :
    Inv (es.foldl handleEvent s) := by
  induction es generalizing s with
  | nil => exact h
  | cons e es ih => exact ih (inv_step e h)

lemma inv_start (name u : String) : Inv (startWorkflow name u) := by
  simp [Inv, startWorkflow, resumeRun, mkInstance]

lemma inv_run (name u : String) (es : List Event) :
    Inv (runWorkflow name u es) :=
  inv_foldl es (inv_start name u)

lemma runWorkflow_append (name u : String) (es es' : List Event) :
    runWorkflow name u (es ++ es') = es'.foldl handleEvent (runWorkflow name u es) := by
  rw [runWorkflow, runWorkflow, List.foldl_append]

/-! ### Monotonicity of the completed flag -/

lemma complete_mono_step {s : SayHelloWorkflow} (e : Event)
    (h : s.complete = true) : (handleEvent s e).complete = true := by
  rcases s with ⟨n, c, uid, lg, ac, ph⟩
  cases e <;> cases ph <;>
    simp_all [handleEvent, resumeRun, signal_complete, execActivity]

lemma complete_mono_foldl {s : SayHelloWorkflow} (es : List Event)
    (h : s.complete = true) : (es.foldl handleEvent s).complete = true := by
  induction es generalizing s with
  | nil => exact h
  | cons e es ih => exact ih (complete_mono_step e h)

lemma nonsignal_complete_step {s : SayHelloWorkflow} {e : Event}
    (he : e ≠ .signal) : (handleEvent s e).complete = s.complete := by
  rcases s with ⟨n, c, uid, lg, ac, ph⟩
  cases e <;> cases ph <;>
    simp_all [handleEvent, resumeRun, signal_complete, execActivity]

/-! ### Stationarity at the wait point without a signal -/

lemma waiting_fixed_step {s : SayHelloWorkflow} {e : Event}
    (hp : s.phase = .atWait) (he : e ≠ .signal) : handleEvent s e = s := by
  rcases s with ⟨n, c, uid, lg, ac, ph⟩
  cases e <;> simp_all [handleEvent]

lemma waiting_fixed_foldl {s : SayHelloWorkflow} {es : List Event}
    (hp : s.phase = .atWait) (he : ∀ e ∈ es, e ≠ .signal) :
    es.foldl handleEvent s = s := by
  induction es with
  | nil => rfl
  | cons e es ih =>
      rw [List.foldl_cons, waiting_fixed_step hp (he e (by simp))]
      exact ih fun x hx => he x (by simp [hx])

/-! ### Stability after the wait has been passed -/

lemma stable_step {s : SayHelloWorkflow} (e : Event)
    (hp : s.phase ≠ .atWait) (hn : s.phase ≠ .notStarted) :
    (handleEvent s e).activityCalls = s.activityCalls ∧
      (handleEvent s e).phase ≠ .atWait ∧ (handleEvent s e).phase ≠ .notStarted := by
  rcases s with ⟨n, c, uid, lg, ac, ph⟩
  cases e <;> cases ph <;>
    simp_all [handleEvent, resumeRun, signal_complete, execActivity]

lemma stable_foldl {s : SayHelloWorkflow} (es : List Event)
    (hp : s.phase ≠ .atWait) (hn : s.phase ≠ .notStarted) :
    (es.foldl handleEvent s).activityCalls = s.activityCalls := by
  induction es generalizing s with
  | nil => rfl
  | cons e es ih =>
      obtain ⟨hc, hw, hs⟩ := stable_step e hp hn
      rw [List.foldl_cons, ih hw hs, hc]

/-! ### The failed phase is absorbing -/

lemma failed_step {s : SayHelloWorkflow} (e : Event)
    (hp : s.phase = .failed) : (handleEvent s e).phase = .failed := by
  rcases s with ⟨n, c, uid, lg, ac, ph⟩
  cases e <;> simp_all [handleEvent, resumeRun, signal_complete]

lemma failed_foldl {s : SayHelloWorkflow} (es : List Event)
    (hp : s.phase = .failed) : (es.foldl handleEvent s).phase = .failed := by
  induction es generalizing s with
  | nil => exact hp
  | cons e es ih => exact ih (failed_step e hp)

/-! ### Effect of a signal delivery -/

lemma signal_effects {s : SayHelloWorkflow} (hInv : Inv s) :
    (handleEvent s .signal).log = s.log ++ [sigLogLine s.userId] ∧
      (handleEvent s .signal).complete = true ∧
      (handleEvent s .signal).userId = s.userId ∧
      (handleEvent s .signal).inputName = s.inputName := by
  rcases s with ⟨n, c, uid, lg, ac, ph⟩
  obtain ⟨h1, h2, h3⟩ := hInv
  cases ph <;>
    simp_all [handleEvent, resumeRun, signal_complete, execActivity]

lemma signal_noop_fields {s : SayHelloWorkflow} (hInv : Inv s)
    (hc : s.complete = true) :
    (handleEvent s .signal).complete = true ∧
      (handleEvent s .signal).activityCalls = s.activityCalls ∧
      result (handleEvent s .signal) = result s ∧
      (handleEvent s .signal).phase = s.phase := by
  rcases s with ⟨n, c, uid, lg, ac, ph⟩
  obtain ⟨h1, h2, h3⟩ := hInv
  cases ph <;>
    simp_all [handleEvent, resumeRun, signal_complete, execActivity, result]

lemma signal_replicate {s : SayHelloWorkflow} (hInv : Inv s)
    (hc : s.complete = true) (k : Nat) :
    ((List.replicate k Event.signal).foldl handleEvent s).complete = true ∧
      ((List.replicate k Event.signal).foldl handleEvent s).activityCalls
        = s.activityCalls ∧
      result ((List.replicate k Event.signal).foldl handleEvent s) = result s ∧
      ((List.replicate k Event.signal).foldl handleEvent s).phase = s.phase := by
  induction k generalizing s with
  | zero => exact ⟨hc, rfl, rfl, rfl⟩
  | succ k ih =>
      rw [List.replicate_succ, List.foldl_cons]
      obtain ⟨a1, a2, a3, a4⟩ := signal_noop_fields hInv hc
      obtain ⟨b1, b2, b3, b4⟩ := ih (inv_step .signal hInv) a1
      exact ⟨b1, b2.trans a2, b3.trans a3, b4.trans a4⟩

/-! ### Absence of a signal keeps the flag down -/

lemma nonsignal_complete_foldl {s : SayHelloWorkflow} {es : List Event}
    (he : ∀ e ∈ es, e ≠ .signal) :
    (es.foldl handleEvent s).complete = s.complete := by
  induction es generalizing s with
  | nil => rfl
  | cons e es ih =>
      rw [List.foldl_cons, ih (fun x hx => he x (by simp [hx])),
        nonsignal_complete_step (he e (by simp))]

lemma signal_mem_of_complete {name u : String} {es : List Event}
    (h : (runWorkflow name u es).complete = true) : Event.signal ∈ es := by
  by_contra hmem
  have hall : ∀ e ∈ es, e ≠ Event.signal := fun e he heq => hmem (heq ▸ he)
  rw [runWorkflow, nonsignal_complete_foldl hall] at h
  simp [startWorkflow, resumeRun, mkInstance] at h

/-! ### Observational agreement up to the log -/

/-- Two instance states that agree on everything except the accumulated log
messages. -/
def AgreeObs (s t : SayHelloWorkflow) : Prop :=
  s.inputName = t.inputName ∧ s.complete = t.complete ∧ s.userId = t.userId ∧
    s.activityCalls = t.activityCalls ∧ s.phase = t.phase

lemma agree_step {s t : SayHelloWorkflow} (e : Event) (h : AgreeObs s t) :
    AgreeObs (handleEvent s e) (handleEvent t e) := by
  rcases s with ⟨n, c, uid, lg, ac, ph⟩
  rcases t with ⟨n', c', uid', lg', ac', ph'⟩
  obtain ⟨h1, h2, h3, h4, h5⟩ := h
  simp only at h1 h2 h3 h4 h5
  subst h1; subst h2; subst h3; subst h4; subst h5
  cases e <;> cases ph <;>
    simp [AgreeObs, handleEvent, resumeRun, signal_complete, execActivity]

lemma agree_foldl {s t : SayHelloWorkflow} (es : List Event)
    (h : AgreeObs s t) :
    AgreeObs (es.foldl handleEvent s) (es.foldl handleEvent t) := by
  induction es generalizing s t with
  | nil => exact h
  | cons e es ih => exact ih (agree_step e h)

lemma agree_start (name u1 u2 : String) :
    AgreeObs (startWorkflow name u1) (startWorkflow name u2) := by
  simp [AgreeObs, startWorkflow, resumeRun, mkInstance]

lemma result_congr {s t : SayHelloWorkflow} (h : s.phase = t.phase) :
    result s = result t := by
  rcases s with ⟨n, c, uid, lg, ac, ph⟩
  rcases t with ⟨n', c', uid', lg', ac', ph'⟩
  simp only at h
  subst h
  rfl

/-! ### Claims -/

/-- C1: for every workflow instance, if the activity invoker returns a
string `R` for the invocation made with the instance's input name, then the
workflow's final result is exactly `R`, unmodified.  The hypothesis states
that the instance is suspended awaiting the activity; the pending invocation
then carries the input name, and delivering the invoker's return value `R`
makes `R` the workflow's final result. -/
theorem workflow_result_is_activity_result (name u R : String) (es : List Event)
    (h : (runWorkflow name u es).phase = .atActivity) :
    (runWorkflow name u es).activityCalls = [(name, startToCloseTimeout)] ∧
      result (runWorkflow name u (es ++ [.activityOk R])) = some R := by
  obtain ⟨h1, h2, h3⟩ := inv_run name u es
  have hname := runWorkflow_inputName name u es
  constructor
  · have hc := (h3 (by rw [h]; simp)).2
    rwa [hname] at hc
  · rw [runWorkflow_append]
    simp [List.foldl, handleEvent, h, result]

/-- Witness for C1: the spec's scenario, `name = "World"`, one signal, the
invoker returns `"Hello, World!"`. -/
theorem workflow_result_is_activity_result_witness :
    (runWorkflow "World" "w" [.signal]).phase = .atActivity ∧
      ((runWorkflow "World" "w" [.signal]).activityCalls
          = [("World", startToCloseTimeout)] ∧
        result (runWorkflow "World" "w" ([.signal] ++ [.activityOk "Hello, World!"]))
          = some "Hello, World!") :=
  ⟨by decide,
    workflow_result_is_activity_result "World" "w" "Hello, World!" [.signal] (by decide)⟩

/-- C2: for every input string `name`, starting an instance and delivering
`signal_complete` exactly once (the event trace contains one signal, with
arbitrary signal-free segments around it) causes the activity invoker to be
called exactly once, with arguments `(name, 5-minute start-to-close
timeout)`. -/
theorem activity_called_once_with_input (name u : String) (es1 es2 : List Event)
    (h1 : ∀ e ∈ es1, e ≠ .signal) (h2 : ∀ e ∈ es2, e ≠ .signal) :
    (runWorkflow name u (es1 ++ .signal :: es2)).activityCalls
      = [(name, startToCloseTimeout)] := by
  have hstart : runWorkflow name u es1 = startWorkflow name u := by
    rw [runWorkflow]
    exact waiting_fixed_foldl rfl h1
  have hsplit : es1 ++ Event.signal :: es2 = (es1 ++ [Event.signal]) ++ es2 := by simp
  rw [hsplit, runWorkflow_append]
  have hs : runWorkflow name u (es1 ++ [Event.signal])
      = handleEvent (startWorkflow name u) .signal := by
    rw [runWorkflow_append, hstart]
    rfl
  rw [hs]
  have hph : (handleEvent (startWorkflow name u) Event.signal).phase = .atActivity := by
    simp [handleEvent, startWorkflow, resumeRun, mkInstance, signal_complete, execActivity]
  rw [stable_foldl es2 (by rw [hph]; simp) (by rw [hph]; simp)]
  simp [handleEvent, startWorkflow, resumeRun, mkInstance, signal_complete, execActivity]

/-- Witness for C2: input `"World"`, a stray activity outcome before and
after the single signal. -/
theorem activity_called_once_with_input_witness :
    (runWorkflow "World" "w"
        ([Event.activityOk "early"] ++ Event.signal :: [Event.activityOk "late"])).activityCalls
      = [("World", startToCloseTimeout)] :=
  activity_called_once_with_input "World" "w" [Event.activityOk "early"]
    [Event.activityOk "late"] (by decide) (by decide)

/-- C3: for every instance and every interleaving of deliveries, the
activity is invoked at most once, and any invocation happens only after the
completed flag has become true, i.e. only after a signal has been
delivered. -/
theorem activity_at_most_once_only_after_signal (name u : String) (es : List Event) :
    (runWorkflow name u es).activityCalls.length ≤ 1 ∧
      ((runWorkflow name u es).activityCalls ≠ [] →
        (runWorkflow name u es).complete = true ∧ Event.signal ∈ es) := by
  obtain ⟨h1, h2, h3⟩ := inv_run name u es
  by_cases hw : (runWorkflow name u es).phase = .atWait
  · obtain ⟨-, hc⟩ := h2 hw
    simp [hc]
  · obtain ⟨hcomp, hcalls⟩ := h3 hw
    rw [hcalls]
    exact ⟨by simp, fun _ => ⟨hcomp, signal_mem_of_complete hcomp⟩⟩

/-- Witness for C3: one signal; the invocation exists, the flag is up and
the trace contains the signal. -/
theorem activity_at_most_once_only_after_signal_witness :
    (runWorkflow "World" "w" [Event.signal]).activityCalls.length ≤ 1 ∧
      ((runWorkflow "World" "w" [Event.signal]).complete = true ∧
        Event.signal ∈ [Event.signal]) :=
  ⟨(activity_at_most_once_only_after_signal "World" "w" [Event.signal]).1,
    (activity_at_most_once_only_after_signal "World" "w" [Event.signal]).2 (by decide)⟩

/-- C4: for every input `name`, if an instance is started and
`signal_complete` is never delivered, the instance remains suspended at the
wait condition after any trace of the remaining events, and the activity
invoker is never called. -/
theorem no_signal_waits_forever (name u : String) (es : List Event)
    (h : ∀ e ∈ es, e ≠ .signal) :
    (runWorkflow name u es).phase = .atWait ∧
      (runWorkflow name u es).activityCalls = [] := by
  have hfix : runWorkflow name u es = startWorkflow name u := by
    rw [runWorkflow]
    exact waiting_fixed_foldl rfl h
  rw [hfix]
  exact ⟨rfl, rfl⟩

/-- Witness for C4: a signal-free trace of stray activity outcomes. -/
theorem no_signal_waits_forever_witness :
    (runWorkflow "World" "w" [Event.activityOk "x", Event.activityFail]).phase
        = .atWait ∧
      (runWorkflow "World" "w" [Event.activityOk "x", Event.activityFail]).activityCalls
        = [] :=
  no_signal_waits_forever "World" "w" [Event.activityOk "x", Event.activityFail]
    (by decide)

/-- C5: once the completed flag is true, delivering `signal_complete` any
number of additional times has no further observable effect on the
instance: the flag stays true, the recorded activity invocations are
unchanged (still at most the single one), the final result is unchanged and
the run coroutine stays at the same point. -/
theorem extra_signals_no_effect (name u : String) (es : List Event) (k : Nat)
    (h : (runWorkflow name u es).complete = true) :
    (runWorkflow name u (es ++ List.replicate k Event.signal)).complete = true ∧
      (runWorkflow name u (es ++ List.replicate k Event.signal)).activityCalls
        = (runWorkflow name u es).activityCalls ∧
      result (runWorkflow name u (es ++ List.replicate k Event.signal))
        = result (runWorkflow name u es) ∧
      (runWorkflow name u (es ++ List.replicate k Event.signal)).phase
        = (runWorkflow name u es).phase := by
  rw [runWorkflow_append]
  exact signal_replicate (inv_run name u es) h k

/-- Witness for C5: after a completed run, three extra signals change
nothing observable. -/
theorem extra_signals_no_effect_witness :
    (runWorkflow "World" "w" [Event.signal, Event.activityOk "hi"]).complete = true ∧
      ((runWorkflow "World" "w"
            ([Event.signal, Event.activityOk "hi"] ++ List.replicate 3 Event.signal)).complete
          = true ∧
        (runWorkflow "World" "w"
            ([Event.signal, Event.activityOk "hi"] ++ List.replicate 3 Event.signal)).activityCalls
          = (runWorkflow "World" "w" [Event.signal, Event.activityOk "hi"]).activityCalls ∧
        result (runWorkflow "World" "w"
            ([Event.signal, Event.activityOk "hi"] ++ List.replicate 3 Event.signal))
          = result (runWorkflow "World" "w" [Event.signal, Event.activityOk "hi"]) ∧
        (runWorkflow "World" "w"
            ([Event.signal, Event.activityOk "hi"] ++ List.replicate 3 Event.signal)).phase
          = (runWorkflow "World" "w" [Event.signal, Event.activityOk "hi"]).phase) :=
  ⟨by decide,
    extra_signals_no_effect "World" "w" [Event.signal, Event.activityOk "hi"] 3 (by decide)⟩

/-- C6: if the pending activity invocation fails or times out, the
propagated `ActivityFailure` fails the run routine: the instance is failed
from that point on, whatever later events arrive, and the workflow never
returns a result. -/
theorem activity_failure_fails_instance (name u : String) (es es' : List Event)
    (h : (runWorkflow name u es).phase = .atActivity) :
    (runWorkflow name u (es ++ Event.activityFail :: es')).phase = .failed ∧
      result (runWorkflow name u (es ++ Event.activityFail :: es')) = none := by
  have hsplit : es ++ Event.activityFail :: es' = (es ++ [Event.activityFail]) ++ es' := by
    simp
  have hf : (runWorkflow name u (es ++ [Event.activityFail])).phase = .failed := by
    rw [runWorkflow_append]
    simp [List.foldl, handleEvent, h]
  rw [hsplit, runWorkflow_append]
  have habs := failed_foldl es' hf
  exact ⟨habs, by simp [result, habs]⟩

/-- Witness for C6: signal, then the activity fails, then a stray signal;
the instance is failed with no result. -/
theorem activity_failure_fails_instance_witness :
    (runWorkflow "World" "w" [Event.signal]).phase = .atActivity ∧
      ((runWorkflow "World" "w"
            ([Event.signal] ++ Event.activityFail :: [Event.signal])).phase = .failed ∧
        result (runWorkflow "World" "w"
            ([Event.signal] ++ Event.activityFail :: [Event.signal])) = none) :=
  ⟨by decide,
    activity_failure_fails_instance "World" "w" [Event.signal] [Event.signal] (by decide)⟩

/-- C7: every start begins on a freshly constructed instance with the
completed flag false, and the run routine, before suspending, logs the
identity-context value it was started with, overwrites the identity context
with the literal `"random"`, and suspends at the wait condition having
invoked no activity — the logged line carries the pre-overwrite value `u`,
witnessing the order of the three steps. -/
theorem start_logs_sets_identity_then_waits (name u : String) :
    (mkInstance name u).complete = false ∧
      startWorkflow name u =
        { inputName := name, complete := false, userId := "random",
          log := [wfLogLine u], activityCalls := [], phase := .atWait } :=
  ⟨rfl, rfl⟩

/-- C8: every delivery of `signal_complete` to a started instance logs the
current identity-context value and sets the completed flag to true; it
consumes no argument beyond the instance and alters neither the identity
context nor the input name. -/
theorem signal_delivery_logs_then_sets_complete (name u : String) (es : List Event) :
    (handleEvent (runWorkflow name u es) .signal).log
        = (runWorkflow name u es).log ++ [sigLogLine (runWorkflow name u es).userId] ∧
      (handleEvent (runWorkflow name u es) .signal).complete = true ∧
      (handleEvent (runWorkflow name u es) .signal).userId
        = (runWorkflow name u es).userId :=
  ⟨(signal_effects (inv_run name u es)).1, (signal_effects (inv_run name u es)).2.1,
    (signal_effects (inv_run name u es)).2.2.1⟩

/-- C9: the completed flag is monotone: once true, no later operation of the
workflow — signal deliveries, activity outcomes, coroutine resumptions —
ever makes it false again. -/
theorem complete_flag_monotone (name u : String) (es es' : List Event)
    (h : (runWorkflow name u es).complete = true) :
    (runWorkflow name u (es ++ es')).complete = true := by
  rw [runWorkflow_append]
  exact complete_mono_foldl es' h

/-- Witness for C9: the flag set by a signal survives an activity failure
and a further signal. -/
theorem complete_flag_monotone_witness :
    (runWorkflow "World" "w" [Event.signal]).complete = true ∧
      (runWorkflow "World" "w"
          ([Event.signal] ++ [Event.activityFail, Event.signal])).complete = true :=
  ⟨by decide,
    complete_flag_monotone "World" "w" [Event.signal] [Event.activityFail, Event.signal]
      (by decide)⟩

/-- C10: the workflow's result does not depend on the identity context: two
executions with the same input name, the same event trace and invoker
behaviour but different initial identity-context values produce the same
final result and the same activity invocations — the identity value flows
only into log messages. -/
theorem result_independent_of_identity_context (name u1 u2 : String) (es : List Event) :
    result (runWorkflow name u1 es) = result (runWorkflow name u2 es) ∧
      (runWorkflow name u1 es).activityCalls = (runWorkflow name u2 es).activityCalls := by
  obtain ⟨-, -, -, hcalls, hphase⟩ := agree_foldl es (agree_start name u1 u2)
  exact ⟨result_congr hphase, hcalls⟩

end SayHello
